import Mathlib

/-!
Verification of the sensor-data ingestion and frame/transform core of
`NodeVis.py` (quaternion parsing, CSV/XLSX and STO loaders, dataset
validation, and the per-frame transform dispatch of `_update_frame`).

Python strings are embedded as `List Char`; Python `float` values as `ℚ`;
pandas cells that may be `NaN` as `Option`; exceptions as `Except`.
Python's `float()` conversion is a builtin, so functions that call it are
parameterised over a conversion function `toNum : Str → Option ℚ`.
-/

set_option autoImplicit false

namespace NodeVis

/-- Python strings, embedded as lists of characters. -/
abbrev Str := List Char

/-- The whitespace characters recognised by Python's `str.strip()`/`str.split()`. -/
def isWs (c : Char) : Bool :=
  c == ' ' || c == '\t' || c == '\n' || c == '\r' || c == '\x0b' || c == '\x0c'

/-- Model of Python `str.strip()`: drop whitespace from both ends. -/
def pyStrip (s : Str) : Str :=
  ((s.dropWhile isWs).reverse.dropWhile isWs).reverse

/-- Model of Python `str.lower()` (ASCII case folding). -/
def pyLower (s : Str) : Str :=
  s.map Char.toLower

/-- First occurrence of the substring `sep` in `s`: returns the text before it and
the text after it, or `none` when `sep` does not occur. -/
def breakSub (sep : Str) : Str → Option (Str × Str)
  | [] => if sep.isEmpty then some ([], []) else none
  | c :: rest =>
    if sep.isPrefixOf (c :: rest) then some ([], (c :: rest).drop sep.length)
    else
      match breakSub sep rest with
      | some (pre, post) => some (c :: pre, post)
      | none => none

/-- Python's `s.split(sep)[1]` for a non-empty separator: the text between the
first and the second occurrence of `sep` (up to the end of the string when
`sep` occurs only once).  When `sep` does not occur at all, `[1]` would raise
`IndexError` in Python; the program only evaluates it on strings that start
with `sep`, so that branch is unreachable there. -/
def splitIdx1 (sep : Str) (s : Str) : Str :=
  match breakSub sep s with
  | none => []
  | some (_, rest0) =>
    match breakSub sep rest0 with
    | none => rest0
    | some (pre1, _) => pre1

/-- Model of Python `str.split()` (no argument): split on runs of whitespace,
discarding empty tokens. -/
def pySplitWs (s : Str) : List Str :=
  let step := fun (c : Char) (st : Str × List Str) =>
    let (cur, acc) := st
    if isWs c then
      if cur.isEmpty then ([], acc) else ([], cur :: acc)
    else (c :: cur, acc)
  let (cur, acc) := s.foldr step ([], [])
  if cur.isEmpty then acc else cur :: acc

/-- The token list `parts` computed by `_parse_quaternion_string` from the stripped
raw text: split on commas (`str.split(",")`, which keeps empty pieces, then strip
each piece) when a comma is present, otherwise split on whitespace. -/
def quatTokens (t : Str) : List Str :=
  if t.contains ',' then (t.splitOn ',').map pyStrip else pySplitWs t

/-- Left-to-right conversion of every token, as the list comprehension
`[float(part) for part in parts]` does; `none` as soon as one conversion fails. -/
def numsOf (toNum : Str → Option ℚ) : List Str → Option (List ℚ)
  | [] => some []
  | t :: ts =>
    match toNum t with
    | none => none
    | some v => (numsOf toNum ts).map (v :: ·)

/-- `_parse_quaternion_string` (NodeVis.py lines 47-66).  The raw cell is
`none` when `pd.isna` holds; `toNum` models Python's `float()`. -/
def parse_quaternion_string (toNum : Str → Option ℚ) (raw : Option Str) :
    Except Str (List ℚ) :=
  match raw with
  | none => .error ("Encountered NaN quaternion value.".toList)
  | some v =>
    let t := pyStrip v
    if t = [] then .error ("Encountered empty quaternion value.".toList)
    else
      let parts := quatTokens t
      if parts.length ≠ 4 then
        .error ("Quaternion '".toList ++ t ++ "' does not have four components.".toList)
      else
        match numsOf toNum parts with
        | none => .error ("Quaternion '".toList ++ t ++ "' contains non-numeric data.".toList)
        | some vs => .ok vs

theorem numsOf_eq_none_iff (toNum : Str → Option ℚ) (l : List Str) :
    numsOf toNum l = none ↔ ∃ t ∈ l, toNum t = none := by
  induction l with
  | nil => simp [numsOf]
  | cons t ts ih =>
    rw [numsOf]
    cases h : toNum t with
    | none => simp [h]
    | some v =>
      simp only [Option.map_eq_none', ih]
      constructor
      · rintro ⟨u, hu, hn⟩; exact ⟨u, List.mem_cons_of_mem _ hu, hn⟩
      · rintro ⟨u, hu, hn⟩
        rcases List.mem_cons.mp hu with rfl | hu
        · rw [h] at hn; exact absurd hn (by simp)
        · exact ⟨u, hu, hn⟩

theorem numsOf_get? (toNum : Str → Option ℚ) (l : List Str) (vs : List ℚ)
    (h : numsOf toNum l = some vs) :
    vs.length = l.length ∧ ∀ j : ℕ, vs.get? j = (l.get? j).bind toNum := by
  induction l generalizing vs with
  | nil =>
    simp only [numsOf, Option.some.injEq] at h
    subst h
    exact ⟨rfl, fun j => by cases j <;> simp⟩
  | cons t ts ih =>
    rw [numsOf] at h
    cases ht : toNum t with
    | none => rw [ht] at h; exact absurd h (by simp)
    | some v =>
      rw [ht] at h
      cases hts : numsOf toNum ts with
      | none => rw [hts] at h; exact absurd h (by simp)
      | some vs' =>
        rw [hts] at h
        simp only [Option.map_some', Option.some.injEq] at h
        subst h
        obtain ⟨hlen, hget⟩ := ih vs' hts
        refine ⟨by simp [hlen], fun j => ?_⟩
        cases j with
        | zero => simp [ht]
        | succ j => simpa using hget j

/-! ## Tabular (CSV/XLSX) loader -/

/-- A pandas `DataFrame` as the tabular loaders see it: named columns of numeric
cells, in column order.  (In a well-formed frame all columns have the same
length; theorems state that where they rely on it.) -/
structure DataFrame where
  cols : List (Str × List ℚ)

/-- One sensor's timeline: its quaternion rows, frame order = row order. -/
abbrev Timeline := List (List ℚ)

/-- The sensor-name discovery of `_load_csv_or_excel` (line 75-77):
`[column.split("Quat1_")[1] for column in columns if column.startswith("Quat1_")]`.
The index `[1]` always exists because the column starts with the separator, so the
split has at least two pieces; `getD` supplies an unreachable default. -/
def csvSensorNames (columns : List Str) : List Str :=
  (columns.filter (fun c => ("Quat1_".toList).isPrefixOf c)).map
    (fun c => splitIdx1 ("Quat1_".toList) c)

/-- Column lookup `sensor_data[name]`, first matching column. -/
def getCol (df : DataFrame) (name : Str) : Option (List ℚ) :=
  (df.cols.find? (fun p => p.1 == name)).map (·.2)

/-- Row-wise pairing of the four quaternion component columns, as
`.to_numpy()` on the selected four columns produces. -/
def zip4 : List ℚ → List ℚ → List ℚ → List ℚ → Timeline
  | a :: as, b :: bs, c :: cs, d :: ds => [a, b, c, d] :: zip4 as bs cs ds
  | _, _, _, _ => []

/-- For each discovered sensor name, fetch columns `Quat1_<name>..Quat4_<name>`;
`none` models the `KeyError` pandas raises when one of them is missing. -/
def collectFrames (df : DataFrame) : List Str → Option (List Timeline)
  | [] => some []
  | n :: rest => do
    let c1 ← getCol df ("Quat1_".toList ++ n)
    let c2 ← getCol df ("Quat2_".toList ++ n)
    let c3 ← getCol df ("Quat3_".toList ++ n)
    let c4 ← getCol df ("Quat4_".toList ++ n)
    let tail ← collectFrames df rest
    some (zip4 c1 c2 c3 c4 :: tail)

/-- `_load_csv_or_excel` (NodeVis.py lines 69-88), starting from the parsed
`DataFrame` (the `pd.read_csv`/`pd.read_excel` call itself is file I/O). -/
def load_csv_or_excel (df : DataFrame) : Except Str (List Str × List Timeline) :=
  let sensorNames := csvSensorNames (df.cols.map (·.1))
  if sensorNames.isEmpty then
    .error ("No sensors were detected. Columns must follow the 'Quat1_NAME' pattern.".toList)
  else
    match collectFrames df sensorNames with
    | none => .error ("KeyError".toList)
    | some frames => .ok (sensorNames, frames)

/-! ## STO loader -/

/-- One column of the whitespace-delimited data table of an STO file:
its (stripped) name and its raw cells, `none` for a missing (`NaN`) cell. -/
structure StoColumn where
  name : Str
  cells : List (Option Str)

/-- The list comprehension of `_load_sto` lines 115-119: the stripped text of
every cell that is neither missing nor empty after stripping. -/
def validValues (cells : List (Option Str)) : List Str :=
  cells.filterMap (fun c => c.bind (fun v =>
    let t := pyStrip v
    if t.isEmpty then none else some t))

/-- The per-column acceptance test of `_load_sto`: not the `time` column
(case-insensitive), at least one populated cell, and the first populated cell
has exactly 3 commas or exactly 4 whitespace-separated tokens. -/
def stoKeep (col : StoColumn) : Bool :=
  if pyLower col.name = "time".toList then false
  else
    match validValues col.cells with
    | [] => false
    | v :: _ => if v.count ',' = 3 ∨ (pySplitWs v).length = 4 then true else false

/-- Parse every raw cell of an accepted column, as
`np.vstack([_parse_quaternion_string(value) for value in column_series])` does;
`none` as soon as any cell fails to parse. -/
def colParse (toNum : Str → Option ℚ) : List (Option Str) → Option Timeline
  | [] => some []
  | c :: cs =>
    match parse_quaternion_string toNum c with
    | .error _ => none
    | .ok q => (colParse toNum cs).map (q :: ·)

/-- The column scan of `_load_sto` (NodeVis.py lines 109-139) over the parsed
data table: skip `time`, skip unpopulated columns, skip columns whose first
populated value fails the token-count heuristic, parse every cell of the rest
(a parse failure is a hard error naming the column and file), and return the
accepted names and timelines in column order. -/
def stoScan (fileName : Str) (toNum : Str → Option ℚ) :
    List StoColumn → Except Str (List Str × List Timeline)
  | [] => .ok ([], [])
  | col :: rest =>
    if pyLower col.name = "time".toList then stoScan fileName toNum rest
    else
      match validValues col.cells with
      | [] => stoScan fileName toNum rest
      | v :: _ =>
        if v.count ',' ≠ 3 ∧ (pySplitWs v).length ≠ 4 then stoScan fileName toNum rest
        else
          match colParse toNum col.cells with
          | none =>
            .error ("Column '".toList ++ col.name ++ "' in '".toList ++ fileName ++
              "' does not contain valid quaternion data.".toList)
          | some qs =>
            match stoScan fileName toNum rest with
            | .error e => .error e
            | .ok (ns, fs) => .ok (col.name :: ns, qs :: fs)

/-- The header scan of `_load_sto` lines 92-97: index of the first line whose
stripped, lower-cased content equals `endheader`. -/
def findEndheader : List Str → Option ℕ
  | [] => none
  | l :: rest =>
    if pyLower (pyStrip l) == "endheader".toList then some 0
    else (findEndheader rest).map (· + 1)

/-- The whitespace-delimited table that `pd.read_csv` with whitespace separator
and `skiprows` builds from the data lines: the first non-blank line is the header row, later non-blank
lines are data rows; a cell is missing when its row is shorter than the header. -/
def stoTable (dataLines : List Str) : List StoColumn :=
  match dataLines.filter (fun l => !(pyStrip l).isEmpty) with
  | [] => []
  | hdr :: rows =>
    let names := (pySplitWs hdr).map pyStrip
    (List.range names.length).map (fun j =>
      ⟨names.getD j [], rows.map (fun r => (pySplitWs r).get? j)⟩)

/-- `_load_sto` (NodeVis.py lines 91-139) from the file's lines.  A file whose
non-blank data section is empty makes `pd.read_csv` itself raise
(`No columns to parse`); the scan of an empty table yields the
no-quaternion-columns error, matching lines 135-138. -/
def load_sto (fileName : Str) (toNum : Str → Option ℚ) (lines : List Str) :
    Except Str (List Str × List Timeline) :=
  match findEndheader lines with
  | none => .error ("The file '".toList ++ fileName ++ "' is missing an 'endheader' line.".toList)
  | some i =>
    match stoScan fileName toNum (stoTable (lines.drop (i + 1))) with
    | .error e => .error e
    | .ok (ns, fs) =>
      if fs.isEmpty then
        .error ("No quaternion columns were found in '".toList ++ fileName ++ "'.".toList)
      else .ok (ns, fs)

/-! ## Dataset validation (`main`, NodeVis.py lines 371-381) -/

/-- The checks `main` performs on the loaded data: reject an empty sensor list,
then require the set of distinct per-sensor frame counts (`frame_counts`) to
have exactly one element, returning it as `nframes`. -/
def mainValidate (loaded : List Str × List Timeline) :
    Except Str (List Str × List Timeline × ℕ) :=
  let (names, frames) := loaded
  if frames.isEmpty then
    .error ("No sensor quaternion data was found in the provided file.".toList)
  else if ((frames.map List.length).dedup).length ≠ 1 then
    .error ("All sensors must contain the same number of frames.".toList)
  else .ok (names, frames, ((frames.map List.length).dedup).headD 0)

/-- Load-and-validate pipeline for a tabular file. -/
def csvPipeline (df : DataFrame) : Except Str (List Str × List Timeline × ℕ) :=
  (load_csv_or_excel df).bind mainValidate

/-- Load-and-validate pipeline for an STO file. -/
def stoPipeline (fileName : Str) (toNum : Str → Option ℚ) (lines : List Str) :
    Except Str (List Str × List Timeline × ℕ) :=
  (load_sto fileName toNum lines).bind mainValidate

/-! ## A concrete numeric conversion -/

/-- Value of a decimal digit. -/
def digit? (c : Char) : Option ℕ :=
  if '0' ≤ c ∧ c ≤ '9' then some (c.toNat - '0'.toNat) else none

/-- Value of a non-empty all-digit string. -/
def digitsVal? (cs : Str) : Option ℕ :=
  if cs.isEmpty then none
  else cs.foldlM (fun a c => (digit? c).map (fun d => a * 10 + d)) 0

/-- Models Python's `float()` on plain unsigned decimal literals
(`"12"`, `"3.5"`). -/
def decNumNonneg? (cs : Str) : Option ℚ :=
  match cs.span (fun c => c != '.') with
  | (intPart, []) => (digitsVal? intPart).map (fun a => (a : ℚ))
  | (intPart, _dot :: frac) =>
    match digitsVal? intPart, digitsVal? frac with
    | some a, some b => some ((a : ℚ) + (b : ℚ) / (10 ^ frac.length))
    | _, _ => none

/-- Models Python's `float()` on plain signed decimal literals; used only to
instantiate the numeric-conversion parameter of the theorems on concrete
inputs. -/
def decNum? : Str → Option ℚ
  | '-' :: rest => (decNumNonneg? rest).map Neg.neg
  | cs => decNumNonneg? cs

/-! ## Frame transform engine (`_update_frame`, NodeVis.py lines 151-170) -/

/-- 3x3 matrices over the embedded reals. -/
abbrev M3 := Fin 3 → Fin 3 → ℚ

/-- 4x4 matrices over the embedded reals. -/
abbrev M4 := Fin 4 → Fin 4 → ℚ

/-- `offset_spacing` (NodeVis.py line 19): space between each IMU model. -/
def offset_spacing : ℚ := 1 / 5

/-- `R.from_quat(q, scalar_first=True).as_matrix()`: the standard rotation
matrix of the scalar-first quaternion `(w, x, y, z)`, normalized first — every
entry of the normalized formula is the plain formula divided by the squared
norm `n`, so the matrix is rational in the components.  (scipy raises on a
zero-norm quaternion; there `n = 0` and the division-by-zero junk value is
never asserted meaningful.) -/
def quatToRot (w x y z : ℚ) : M3 :=
  let n := w * w + x * x + y * y + z * z
  ![![1 - 2 * (y * y + z * z) / n, 2 * (x * y - z * w) / n, 2 * (x * z + y * w) / n],
    ![2 * (x * y + z * w) / n, 1 - 2 * (x * x + z * z) / n, 2 * (y * z - x * w) / n],
    ![2 * (x * z - y * w) / n, 2 * (y * z + x * w) / n, 1 - 2 * (x * x + y * y) / n]]

/-- `np.pad(rot_mat, ((0, 1), (0, 1)), "constant")`: embed the 3x3 rotation in
the top-left block of a zero-padded 4x4 matrix. -/
def padMat (rot : M3) : M4 := fun r c =>
  if hr : r.val < 3 then
    if hc : c.val < 3 then rot ⟨r.val, hr⟩ ⟨c.val, hc⟩ else 0
  else 0

/-- `rot_mat4x4[3, 3] = 1`. -/
def setCorner (m : M4) : M4 := fun r c =>
  if r.val = 3 ∧ c.val = 3 then 1 else m r c

/-- `rot_mat4x4[:3, 3] = [i * offset_spacing, 0, 0]`. -/
def setTransCol (i : ℕ) (m : M4) : M4 := fun r c =>
  if h : r.val < 3 ∧ c.val = 3 then
    ![(i : ℚ) * offset_spacing, 0, 0] ⟨r.val, h.1⟩
  else m r c

/-- The full 4x4 transform `_update_frame` builds for sensor `i` from the
quaternion row `q` (scalar first). -/
def computeTransform (i : ℕ) (q : List ℚ) : M4 :=
  setTransCol i (setCorner (padMat
    (quatToRot (q.getD 0 0) (q.getD 1 0) (q.getD 2 0) (q.getD 3 0))))

/-- The state `_update_frame` mutates: one user matrix per sensor assembly,
plus the overlay text. -/
structure SceneState where
  transforms : List M4
  text : Str
  deriving DecidableEq

/-- The loop body of `_update_frame` over the assemblies from position `i0`:
assembly `i` keeps its matrix when `idx < 0 or idx >= len(frames_list[i])`
(the `continue`), otherwise receives the transform of row `idx`.  A missing
`frames_list[i]` would raise `IndexError` in Python; the model keeps the
matrix there, and every theorem that touches that branch carries the length
hypotheses `main` guarantees. -/
def updTr (framesList : List Timeline) (idx : ℤ) : ℕ → List M4 → List M4
  | _, [] => []
  | i, t :: ts =>
    (match framesList.get? i with
     | none => t
     | some frames =>
       if 0 ≤ idx ∧ idx < (frames.length : ℤ) then
         computeTransform i (frames.getD idx.toNat [])
       else t)
    :: updTr framesList idx (i + 1) ts

/-- `_update_frame(idx)` (NodeVis.py lines 151-170): update every assembly's
user matrix and set the overlay text to the raw index. -/
def update_frame (framesList : List Timeline) (idx : ℤ) (s : SceneState) : SceneState :=
  { transforms := updTr framesList idx 0 s.transforms,
    text := "Frame: ".toList ++ (toString idx).toList }

/-- The 4x4 identity, the initial user matrix of an assembly. -/
def id4 : M4 := fun r c => if r = c then 1 else 0

/-! ## Claim theorems -/

/-- C1.  `_parse_quaternion_string` fails exactly when the raw value is missing
(`NaN`), empty after stripping, yields a token count different from 4 when split
on commas (if a comma is present) or otherwise on whitespace, or has a token
that fails numeric conversion; with exactly 4 tokens that all convert, it
returns the 4 converted components in token order.  Being a pure function of
`raw` (and the conversion function), it has no side effects. -/
theorem parse_fails_iff_malformed (toNum : Str → Option ℚ) (raw : Option Str) :
    ((∃ e, parse_quaternion_string toNum raw = .error e) ↔
      raw = none ∨ ∃ v, raw = some v ∧
        (pyStrip v = [] ∨ (quatTokens (pyStrip v)).length ≠ 4 ∨
          ∃ t ∈ quatTokens (pyStrip v), toNum t = none))
    ∧ (∀ v vs, raw = some v → pyStrip v ≠ [] → (quatTokens (pyStrip v)).length = 4 →
        numsOf toNum (quatTokens (pyStrip v)) = some vs →
        parse_quaternion_string toNum raw = .ok vs ∧
        vs.length = 4 ∧
        ∀ j : ℕ, vs.get? j = ((quatTokens (pyStrip v)).get? j).bind toNum) := by
  constructor
  · cases raw with
    | none => simp [parse_quaternion_string]
    | some v =>
      by_cases h1 : pyStrip v = []
      · simp [parse_quaternion_string, h1]
      · by_cases h2 : (quatTokens (pyStrip v)).length = 4
        · cases hn : numsOf toNum (quatTokens (pyStrip v)) with
          | none =>
            have hn' : ∃ t ∈ quatTokens (pyStrip v), toNum t = none :=
              (numsOf_eq_none_iff _ _).mp hn
            simp [parse_quaternion_string, h1, h2, hn, hn']
          | some vs =>
            have hn' : ¬ ∃ t ∈ quatTokens (pyStrip v), toNum t = none := by
              rw [← numsOf_eq_none_iff toNum (quatTokens (pyStrip v))]
              simp [hn]
            simp [parse_quaternion_string, h1, h2, hn, hn']
        · simp [parse_quaternion_string, h1, h2]
  · rintro v vs rfl h1 h2 hnums
    refine ⟨?_, ?_, (numsOf_get? _ _ _ hnums).2⟩
    · simp [parse_quaternion_string, h1, h2, hnums]
    · rw [(numsOf_get? _ _ _ hnums).1, h2]

/-- C1 witness: the characterization evaluated on the concrete raw text
`"1,2,3,4"` under the concrete decimal conversion. -/
theorem parse_fails_iff_malformed_witness :
    parse_quaternion_string decNum? (some ("1,2,3,4".toList)) = .ok [1, 2, 3, 4] :=
  ((parse_fails_iff_malformed decNum? (some ("1,2,3,4".toList))).2
    ("1,2,3,4".toList) [1, 2, 3, 4] rfl (by decide) (by decide) (by decide)).1

theorem updTr_length (fl : List Timeline) (idx : ℤ) :
    ∀ (i0 : ℕ) (ts : List M4), (updTr fl idx i0 ts).length = ts.length := by
  intro i0 ts
  induction ts generalizing i0 with
  | nil => rfl
  | cons t ts ih => simp [updTr, ih]

theorem updTr_get? (fl : List Timeline) (idx : ℤ) :
    ∀ (i0 j : ℕ) (ts : List M4),
    (updTr fl idx i0 ts).get? j = (ts.get? j).map (fun t =>
      match fl.get? (i0 + j) with
      | none => t
      | some frames =>
        if 0 ≤ idx ∧ idx < (frames.length : ℤ) then
          computeTransform (i0 + j) (frames.getD idx.toNat [])
        else t) := by
  intro i0 j ts
  induction ts generalizing i0 j with
  | nil => simp [updTr]
  | cons t ts ih =>
    cases j with
    | zero => simp [updTr]
    | succ j =>
      rw [updTr]
      simp only [List.get?_cons_succ]
      rw [ih (i0 + 1) j]
      rw [show i0 + 1 + j = i0 + (j + 1) by omega]

theorem updTr_keep (fl : List Timeline) (idx : ℤ)
    (h : ∀ i frames, fl.get? i = some frames → ¬ (0 ≤ idx ∧ idx < (frames.length : ℤ))) :
    ∀ (i0 : ℕ) (ts : List M4), updTr fl idx i0 ts = ts := by
  intro i0 ts
  induction ts generalizing i0 with
  | nil => rfl
  | cons t ts ih =>
    rw [updTr, ih (i0 + 1)]
    cases hf : fl.get? i0 with
    | none => rfl
    | some frames => simp [h i0 frames hf]

theorem updTr_indep (fl : List Timeline) (idx : ℤ) :
    ∀ (i0 : ℕ) (ts ts' : List M4), ts.length = ts'.length →
    (∀ j, j < ts.length →
      ∃ frames, fl.get? (i0 + j) = some frames ∧ 0 ≤ idx ∧ idx < (frames.length : ℤ)) →
    updTr fl idx i0 ts = updTr fl idx i0 ts' := by
  intro i0 ts
  induction ts generalizing i0 with
  | nil =>
    intro ts' hlen _
    cases ts' with
    | nil => rfl
    | cons t' ts'' => simp at hlen
  | cons t ts ih =>
    intro ts' hlen hin
    cases ts' with
    | nil => simp at hlen
    | cons t' ts'' =>
      obtain ⟨frames, hf, hcond⟩ := hin 0 (by simp)
      rw [Nat.add_zero] at hf
      rw [updTr, updTr, hf]
      congr 1
      · simp [hcond]
      · refine ih (i0 + 1) ts'' (by simpa using hlen) (fun j hj => ?_)
        have := hin (j + 1) (by simp only [List.length_cons]; omega)
        rwa [show i0 + (j + 1) = i0 + 1 + j by omega] at this

/-- C2.  For an in-range frame index, the transform dispatched to sensor `i` is
`computeTransform i q` for the frame's quaternion `q`; that matrix carries the
standard rotation matrix of the scalar-first quaternion (normalized first) in
its top-left 3x3 block, `[0,0,0,1]` as its last row, and
`(i * offset_spacing, 0, 0)` as its translation column, with
`offset_spacing = 0.2`; and the rotation block of the identity quaternion
`(1,0,0,0)` is the 3x3 identity. -/
theorem update_frame_dispatch_spec (fl : List Timeline) (idx : ℤ) (s : SceneState)
    (i : ℕ) (tl : Timeline) (q : List ℚ) (t0 : M4)
    (hfl : fl.get? i = some tl)
    (ht0 : s.transforms.get? i = some t0)
    (h0 : 0 ≤ idx) (hlt : idx < (tl.length : ℤ))
    (hq : tl.getD idx.toNat [] = q) :
    (update_frame fl idx s).transforms.get? i = some (computeTransform i q) ∧
    (∀ r c : Fin 3, computeTransform i q r.castSucc c.castSucc =
      quatToRot (q.getD 0 0) (q.getD 1 0) (q.getD 2 0) (q.getD 3 0) r c) ∧
    (∀ c : Fin 4, computeTransform i q 3 c = if c.val = 3 then 1 else 0) ∧
    (∀ r : Fin 3, computeTransform i q r.castSucc 3 =
      if r.val = 0 then (i : ℚ) * offset_spacing else 0) ∧
    offset_spacing = 1 / 5 ∧
    (∀ r c : Fin 3, quatToRot 1 0 0 0 r c = if r = c then 1 else 0) := by
  have h3 : ((3 : Fin 4) : ℕ) = 3 := rfl
  refine ⟨?_, ?_, ?_, ?_, rfl, ?_⟩
  · rw [update_frame]
    simp only
    rw [updTr_get? fl idx 0 i s.transforms, ht0, Nat.zero_add, hfl]
    simp only [Option.map_some']
    rw [if_pos ⟨h0, hlt⟩, hq]
  · intro r c
    have hr := r.isLt
    have hc := c.isLt
    simp only [computeTransform, setTransCol, setCorner, padMat, Fin.coe_castSucc]
    rw [dif_neg (by omega)]
    rw [if_neg (by omega)]
    rw [dif_pos (by omega), dif_pos (by omega)]
  · intro c
    simp only [computeTransform, setTransCol, setCorner, padMat]
    rw [dif_neg (by rw [h3]; omega)]
    by_cases hc : c.val = 3
    · rw [if_pos ⟨h3, hc⟩, if_pos hc]
    · rw [if_neg (by rw [h3]; tauto), if_neg hc, dif_neg (by rw [h3]; omega)]
  · intro r
    have hr := r.isLt
    simp only [computeTransform, setTransCol, Fin.coe_castSucc]
    rw [dif_pos ⟨by omega, h3⟩]
    match r with
    | ⟨0, _⟩ => simp
    | ⟨1, _⟩ => simp
    | ⟨2, _⟩ => simp [Matrix.vecHead, Matrix.vecTail]
  · intro r c
    fin_cases r <;> fin_cases c <;>
      simp [quatToRot, Matrix.vecHead, Matrix.vecTail]

/-- C2 witness: the dispatch equation evaluated on a concrete one-sensor,
one-frame dataset at frame 0. -/
theorem update_frame_dispatch_spec_witness :
    (update_frame [[([1, 0, 0, 0] : List ℚ)]] 0 ⟨[id4], "Frame: 0".toList⟩).transforms.get? 0 =
      some (computeTransform 0 [1, 0, 0, 0]) :=
  (update_frame_dispatch_spec [[([1, 0, 0, 0] : List ℚ)]] 0 ⟨[id4], "Frame: 0".toList⟩
    0 [[1, 0, 0, 0]] [1, 0, 0, 0] id4 rfl rfl (by decide) (by decide) rfl).1

/-- C3 counterexample: the program does not clamp an out-of-range index.  On a
one-sensor dataset with a single frame whose quaternion is `(0,1,0,0)`, seeking
index 1 (one past the last frame) leaves the node's transform at its previous
value `id4`, which differs from the clamped frame's transform
`computeTransform 0 (0,1,0,0)` — so the clamped frame is not dispatched. -/
theorem seek_out_of_range_not_clamped_cex :
    (update_frame [[([0, 1, 0, 0] : List ℚ)]] 1 ⟨[id4], "Frame: 0".toList⟩).transforms = [id4] ∧
    id4 ≠ computeTransform 0 [0, 1, 0, 0] := by
  refine ⟨rfl, fun h => ?_⟩
  have h11 := congrFun (congrFun h ⟨1, by omega⟩) ⟨1, by omega⟩
  simp only [id4, computeTransform, setTransCol, setCorner, padMat,
    List.getD_cons_zero, List.getD_cons_succ, quatToRot] at h11
  norm_num [Matrix.vecHead, Matrix.vecTail] at h11

/-- C3 amended: when the requested index is outside `[0, frameCount-1]` for a
dataset whose timelines all have length `N`, `_update_frame` dispatches nothing
at all — every node keeps its previous transform — and only the overlay text
is set, to the raw (unclamped) index. -/
theorem seek_out_of_range_ignored (fl : List Timeline) (N : ℕ) (idx : ℤ) (s : SceneState)
    (hN : ∀ tl ∈ fl, tl.length = N)
    (hout : idx < 0 ∨ (N : ℤ) ≤ idx) :
    (update_frame fl idx s).transforms = s.transforms ∧
    (update_frame fl idx s).text = "Frame: ".toList ++ (toString idx).toList := by
  refine ⟨?_, rfl⟩
  rw [update_frame]
  simp only
  refine updTr_keep fl idx (fun i frames hf => ?_) 0 s.transforms
  have hmem : frames ∈ fl := List.get?_mem hf
  have := hN frames hmem
  rcases hout with h | h <;> subst this <;> omega

/-- C3 amended witness: on the one-sensor, one-frame dataset, seeking frame 5
leaves the transforms unchanged and shows the raw index. -/
theorem seek_out_of_range_ignored_witness :
    (update_frame [[([0, 1, 0, 0] : List ℚ)]] 5 ⟨[id4], "Frame: 0".toList⟩).transforms =
      [id4] ∧
    (update_frame [[([0, 1, 0, 0] : List ℚ)]] 5 ⟨[id4], "Frame: 0".toList⟩).text =
      "Frame: ".toList ++ (toString (5 : ℤ)).toList :=
  seek_out_of_range_ignored [[([0, 1, 0, 0] : List ℚ)]] 1 5 ⟨[id4], "Frame: 0".toList⟩
    (by decide) (by omega)

/-- C7.  For any sensor whose timeline does not contain the requested frame
index, `_update_frame` leaves that node's transform exactly as it was (the
`continue` branch) and the update as a whole is a total function — it never
raises on out-of-range indices. -/
theorem out_of_range_frame_keeps_transform (fl : List Timeline) (idx : ℤ) (s : SceneState)
    (i : ℕ) (tl : Timeline)
    (hfl : fl.get? i = some tl)
    (hout : idx < 0 ∨ (tl.length : ℤ) ≤ idx) :
    (update_frame fl idx s).transforms.get? i = s.transforms.get? i := by
  rw [update_frame]
  simp only
  rw [updTr_get? fl idx 0 i s.transforms, Nat.zero_add, hfl]
  cases hst : s.transforms.get? i with
  | none => rfl
  | some t =>
    simp only [Option.map_some', Option.some.injEq]
    show (if 0 ≤ idx ∧ idx < (tl.length : ℤ) then
      computeTransform i (tl.getD idx.toNat []) else t) = t
    rw [if_neg (by omega)]

/-- C7 witness: sensor 0's transform is untouched when frame 3 is requested of
its single-frame timeline. -/
theorem out_of_range_frame_keeps_transform_witness :
    (update_frame [[([0, 1, 0, 0] : List ℚ)]] 3 ⟨[id4], "Frame: 0".toList⟩).transforms.get? 0 =
      (⟨[id4], "Frame: 0".toList⟩ : SceneState).transforms.get? 0 :=
  out_of_range_frame_keeps_transform [[([0, 1, 0, 0] : List ℚ)]] 3 ⟨[id4], "Frame: 0".toList⟩
    0 [[0, 1, 0, 0]] rfl (by right; norm_num)

/-- C9.  For an index in range for every sensor, the dispatched state is a
function of the index and the dataset alone (the previous scene state does not
influence it), and issuing the same index twice produces exactly the state of
issuing it once. -/
theorem update_frame_idempotent (fl : List Timeline) (N : ℕ) (idx : ℤ) (s s' : SceneState)
    (hN : ∀ tl ∈ fl, tl.length = N)
    (hs : s.transforms.length = fl.length) (hs' : s'.transforms.length = fl.length)
    (h0 : 0 ≤ idx) (hlt : idx < (N : ℤ)) :
    update_frame fl idx (update_frame fl idx s) = update_frame fl idx s ∧
    update_frame fl idx s = update_frame fl idx s' := by
  have key : ∀ (ts ts' : List M4), ts.length = fl.length → ts'.length = fl.length →
      updTr fl idx 0 ts = updTr fl idx 0 ts' := by
    intro ts ts' h h'
    refine updTr_indep fl idx 0 ts ts' (by omega) (fun j hj => ?_)
    rw [Nat.zero_add]
    cases hf : fl.get? j with
    | none =>
      have := List.get?_eq_none.mp hf
      omega
    | some frames =>
      have hmem : frames ∈ fl := List.get?_mem hf
      have hlen := hN frames hmem
      exact ⟨frames, rfl, h0, by rw [hlen]; exact hlt⟩
  constructor
  · show SceneState.mk _ _ = SceneState.mk _ _
    congr 1
    exact key _ _ (by rw [update_frame]; simp only; rw [updTr_length]; exact hs) hs
  · show SceneState.mk _ _ = SceneState.mk _ _
    congr 1
    exact key _ _ hs hs'

/-- C9 witness: on a concrete one-sensor, one-frame dataset, seeking frame 0
twice equals seeking it once, and the result is the same from two different
prior states. -/
theorem update_frame_idempotent_witness :
    update_frame [[([1, 0, 0, 0] : List ℚ)]] 0
        (update_frame [[([1, 0, 0, 0] : List ℚ)]] 0 ⟨[id4], "Frame: 0".toList⟩) =
      update_frame [[([1, 0, 0, 0] : List ℚ)]] 0 ⟨[id4], "Frame: 0".toList⟩ ∧
    update_frame [[([1, 0, 0, 0] : List ℚ)]] 0 ⟨[id4], "Frame: 0".toList⟩ =
      update_frame [[([1, 0, 0, 0] : List ℚ)]] 0 ⟨[computeTransform 5 [1, 0, 0, 0]], [].reverse⟩ :=
  update_frame_idempotent [[([1, 0, 0, 0] : List ℚ)]] 1 0 ⟨[id4], "Frame: 0".toList⟩
    ⟨[computeTransform 5 [1, 0, 0, 0]], [].reverse⟩ (by decide) rfl rfl (by omega) (by omega)

/-- C6.  The post-load validation of `main` rejects with the no-sensor-data
error exactly when the loaded frame list is empty, and with the
inconsistent-frame-count error exactly when the sensors are non-empty but the
set of distinct per-sensor frame counts has more than one element. -/
theorem load_validation_errors (names : List Str) (frames : List Timeline) :
    (mainValidate (names, frames) =
        .error ("No sensor quaternion data was found in the provided file.".toList) ↔
      frames = []) ∧
    (mainValidate (names, frames) =
        .error ("All sensors must contain the same number of frames.".toList) ↔
      frames ≠ [] ∧ 1 < (frames.map List.length).dedup.length) := by
  have hmsg : ("No sensor quaternion data was found in the provided file.".toList : Str) ≠
      "All sensors must contain the same number of frames.".toList := by decide
  by_cases hf : frames = []
  · subst hf
    simp only [mainValidate, List.isEmpty_nil, if_true]
    exact ⟨by simp, by simp [hmsg]⟩
  · have hne : ¬ (frames.isEmpty = true) := by simp [List.isEmpty_iff, hf]
    have hdpos : 0 < (frames.map List.length).dedup.length := by
      rcases List.exists_mem_of_ne_nil frames hf with ⟨tl, htl⟩
      have : tl.length ∈ (frames.map List.length).dedup :=
        List.mem_dedup.mpr (List.mem_map_of_mem _ htl)
      exact List.length_pos.mpr (List.ne_nil_of_mem this)
    by_cases hlen : (frames.map List.length).dedup.length = 1
    · simp only [mainValidate, if_neg hne, hlen]
      constructor
      · simp [hf]
      · constructor
        · intro h
          exact absurd h (by simp)
        · intro ⟨_, hgt⟩
          omega
    · simp only [mainValidate, if_neg hne, if_pos hlen]
      constructor
      · constructor
        · intro h
          exact absurd ((Except.error.injEq _ _).mp h).symm hmsg
        · intro h
          exact absurd h hf
      · constructor
        · intro _
          exact ⟨hf, by omega⟩
        · intro _
          trivial

/-- Every dataset accepted by `mainValidate` has all timelines of length equal
to the reported common frame count. -/
theorem mainValidate_ok_lengths (p : List Str × List Timeline)
    (names : List Str) (frames : List Timeline) (n : ℕ)
    (h : mainValidate p = .ok (names, frames, n)) :
    ∀ tl ∈ frames, tl.length = n := by
  obtain ⟨ns, fs⟩ := p
  rw [mainValidate] at h
  by_cases hne : (fs.isEmpty = true)
  · rw [if_pos hne] at h
    exact absurd h (by simp)
  · rw [if_neg hne] at h
    by_cases hlen : (fs.map List.length).dedup.length = 1
    · rw [if_neg (fun hn => hn hlen)] at h
      obtain ⟨m, hm⟩ := List.length_eq_one.mp hlen
      simp only [Except.ok.injEq, Prod.mk.injEq] at h
      obtain ⟨-, hfr, hn⟩ := h
      subst hfr
      intro tl htl
      have hmem2 : tl.length ∈ (fs.map List.length).dedup :=
        List.mem_dedup.mpr (List.mem_map_of_mem _ htl)
      rw [hm] at hmem2
      rw [← hn, hm]
      simpa using hmem2
    · rw [if_pos hlen] at h
      exact absurd h (by simp)

theorem except_bind_ok {α β : Type} (x : Except Str α) (f : α → Except Str β) (b : β)
    (h : x.bind f = .ok b) : ∃ a, x = .ok a ∧ f a = .ok b := by
  cases x with
  | error e => exact absurd h (by simp [Except.bind])
  | ok a => exact ⟨a, rfl, h⟩

/-- C8 counterexample: both halves of the claimed invariant fail on accepted
inputs.  A CSV with the four `Quat*_A` columns but zero data rows passes
load-and-validate with frame count 0 (timelines are not non-empty), and a CSV
whose extra column `Quat1_AQuat1_X` also maps to the sensor name `A` passes
load-and-validate with the duplicate name list `[A, A]`. -/
theorem dataset_invariant_cex :
    csvPipeline ⟨[("Quat1_A".toList, []), ("Quat2_A".toList, []),
        ("Quat3_A".toList, []), ("Quat4_A".toList, [])]⟩ =
      .ok (["A".toList], [([] : Timeline)], 0) ∧
    csvPipeline ⟨[("Quat1_A".toList, [1]), ("Quat2_A".toList, [0]), ("Quat3_A".toList, [0]),
        ("Quat4_A".toList, [0]), ("Quat1_AQuat1_X".toList, [9])]⟩ =
      .ok (["A".toList, "A".toList], [[[1, 0, 0, 0]], [[1, 0, 0, 0]]], 1) :=
  ⟨rfl, rfl⟩

/-- C8 amended: after every successful load-and-validate (tabular or STO
pipeline), all sensor timelines have the same length, namely the validated
common frame count.  (The original claim's additional "non-zero length" and
"no duplicate names" clauses fail, per the counterexample.) -/
theorem dataset_common_length :
    (∀ (df : DataFrame) names frames n, csvPipeline df = .ok (names, frames, n) →
      ∀ tl ∈ frames, tl.length = n) ∧
    (∀ (fileName : Str) (toNum : Str → Option ℚ) (lines : List Str) names frames n,
      stoPipeline fileName toNum lines = .ok (names, frames, n) →
      ∀ tl ∈ frames, tl.length = n) := by
  constructor
  · intro df names frames n h
    obtain ⟨a, -, hval⟩ := except_bind_ok _ _ _ h
    exact mainValidate_ok_lengths a names frames n hval
  · intro fileName toNum lines names frames n h
    obtain ⟨a, -, hval⟩ := except_bind_ok _ _ _ h
    exact mainValidate_ok_lengths a names frames n hval

/-- C8 amended witness: a concrete accepted two-frame CSV dataset where the
single timeline indeed has the validated length 2. -/
theorem dataset_common_length_witness :
    ([[1, 0, 0, 0], [2, 0, 0, 0]] : Timeline).length = 2 :=
  dataset_common_length.1
    ⟨[("Quat1_A".toList, [1, 2]), ("Quat2_A".toList, [0, 0]),
      ("Quat3_A".toList, [0, 0]), ("Quat4_A".toList, [0, 0])]⟩
    ["A".toList] [[[1, 0, 0, 0], [2, 0, 0, 0]]] 2 rfl
    [[1, 0, 0, 0], [2, 0, 0, 0]] (by simp)

theorem findEndheader_eq_none (lines : List Str)
    (h : ∀ l ∈ lines, pyLower (pyStrip l) ≠ "endheader".toList) :
    findEndheader lines = none := by
  induction lines with
  | nil => rfl
  | cons l rest ih =>
    rw [findEndheader]
    rw [if_neg (by simpa using h l (by simp))]
    rw [ih (fun l' hl' => h l' (List.mem_cons_of_mem _ hl'))]
    rfl

/-- C10.  An STO file with no line whose stripped, lower-cased content equals
`endheader` is rejected with an error message that names the file; the failure
happens before any column data is touched, so it does not depend on the
numeric conversion at all. -/
theorem missing_endheader_fails (fileName : Str) (toNum : Str → Option ℚ) (lines : List Str)
    (h : ∀ l ∈ lines, pyLower (pyStrip l) ≠ "endheader".toList) :
    load_sto fileName toNum lines =
      .error ("The file '".toList ++ fileName ++ "' is missing an 'endheader' line.".toList) ∧
    (∀ toNum' : Str → Option ℚ, load_sto fileName toNum lines = load_sto fileName toNum' lines) := by
  have hn := findEndheader_eq_none lines h
  constructor
  · rw [load_sto, hn]
  · intro toNum'
    rw [load_sto, hn, load_sto, hn]

/-- C10 witness: a concrete two-line file without `endheader` is rejected with
the message naming the file. -/
theorem missing_endheader_fails_witness :
    load_sto ("f.sto".toList) decNum? (["a", "b"].map String.toList) =
      .error ("The file '".toList ++ "f.sto".toList ++
        "' is missing an 'endheader' line.".toList) :=
  (missing_endheader_fails ("f.sto".toList) decNum? (["a", "b"].map String.toList)
    (by decide)).1

theorem stoScan_skips_iff (fileName : Str) (toNum : Str → Option ℚ) :
    ∀ cols : List StoColumn,
      stoScan fileName toNum cols = stoScan fileName toNum (cols.filter stoKeep) := by
  intro cols
  induction cols with
  | nil => rfl
  | cons col rest ih =>
    rw [stoScan, List.filter_cons]
    by_cases h1 : pyLower col.name = "time".toList
    · rw [if_pos h1]
      rw [if_neg (by simp [stoKeep, h1])]
      exact ih
    · rw [if_neg h1]
      cases hv : validValues col.cells with
      | nil =>
        rw [if_neg (by simp [stoKeep, h1, hv])]
        exact ih
      | cons v vtail =>
        by_cases h3 : v.count ',' = 3 ∨ (pySplitWs v).length = 4
        · have hkeep : stoKeep col = true := by
            rw [stoKeep, if_neg h1]
            simp only [hv]
            rw [if_pos h3]
          rw [if_pos (by simp [hkeep])]
          simp only [hv]
          rw [if_neg (by tauto)]
          rw [stoScan, if_neg h1]
          simp only [hv]
          rw [if_neg (by tauto)]
          rw [ih]
        · have hkeep : ¬ (stoKeep col = true) := by
            rw [stoKeep, if_neg h1]
            simp only [hv]
            rw [if_neg h3]
            simp
          rw [if_neg hkeep]
          simp only [hv]
          rw [if_pos (by tauto)]
          exact ih

theorem stoScan_names_of_kept (fileName : Str) (toNum : Str → Option ℚ) :
    ∀ (cols : List StoColumn) (names : List Str) (frames : List Timeline),
      (∀ col ∈ cols, stoKeep col = true) →
      stoScan fileName toNum cols = .ok (names, frames) →
      names = cols.map (·.name) := by
  intro cols
  induction cols with
  | nil =>
    intro names frames _ h
    simp only [stoScan, Except.ok.injEq, Prod.mk.injEq] at h
    rw [← h.1]
    rfl
  | cons col rest ih =>
    intro names frames hall h
    have hk := hall col (by simp)
    rw [stoScan] at h
    by_cases h1 : pyLower col.name = "time".toList
    · rw [stoKeep, if_pos h1] at hk
      exact absurd hk (by simp)
    · rw [if_neg h1] at h
      cases hv : validValues col.cells with
      | nil =>
        rw [stoKeep, if_neg h1, hv] at hk
        exact absurd hk (by simp)
      | cons v vtail =>
        simp only [hv] at h
        rw [stoKeep, if_neg h1] at hk
        simp only [hv] at hk
        have h3 : v.count ',' = 3 ∨ (pySplitWs v).length = 4 := by
          by_contra hc
          rw [if_neg hc] at hk
          exact absurd hk (by simp)
        rw [if_neg (by tauto)] at h
        cases hp : colParse toNum col.cells with
        | none =>
          rw [hp] at h
          exact absurd h (by simp)
        | some qs =>
          rw [hp] at h
          cases hs : stoScan fileName toNum rest with
          | error e =>
            rw [hs] at h
            exact absurd h (by simp)
          | ok p =>
            obtain ⟨ns, fs⟩ := p
            rw [hs] at h
            simp only [Except.ok.injEq, Prod.mk.injEq] at h
            rw [← h.1, List.map_cons]
            rw [ih ns fs (fun c hc => hall c (List.mem_cons_of_mem _ hc)) hs]

/-- C5.  A column of an STO data table is treated as a quaternion column
exactly when `stoKeep` holds — it is not the (case-insensitive) `time` column
and its first populated value, after stripping, has exactly 3 commas or
exactly 4 whitespace tokens.  Columns failing the test are skipped silently:
the scan behaves exactly as if they were absent, whatever their later rows
contain; and on success the sensor names are precisely the kept columns'
names in order. -/
theorem sto_column_heuristic (fileName : Str) (toNum : Str → Option ℚ)
    (cols : List StoColumn) :
    stoScan fileName toNum cols = stoScan fileName toNum (cols.filter stoKeep) ∧
    (∀ names frames, stoScan fileName toNum cols = .ok (names, frames) →
      names = (cols.filter stoKeep).map (·.name)) := by
  refine ⟨stoScan_skips_iff fileName toNum cols, fun names frames h => ?_⟩
  rw [stoScan_skips_iff fileName toNum cols] at h
  exact stoScan_names_of_kept fileName toNum (cols.filter stoKeep) names frames
    (fun col hc => (List.mem_filter.mp hc).2) h

/-- C5 witness: a table with a quaternion-valued `time` column, a genuine
quaternion column, and a scalar column whose later rows would match; only the
genuine column is kept. -/
theorem sto_column_heuristic_witness :
    (["s1".toList] : List Str) =
      (([⟨"time".toList, [some ("1,2,3,4".toList)]⟩,
         ⟨"s1".toList, [some ("1,2,3,4".toList)]⟩,
         ⟨"junk".toList, [some ("5".toList), some ("1,2,3,4".toList)]⟩] :
        List StoColumn).filter stoKeep).map (·.name) :=
  (sto_column_heuristic ("f.sto".toList) decNum?
    [⟨"time".toList, [some ("1,2,3,4".toList)]⟩,
     ⟨"s1".toList, [some ("1,2,3,4".toList)]⟩,
     ⟨"junk".toList, [some ("5".toList), some ("1,2,3,4".toList)]⟩]).2
    ["s1".toList] [[[1, 2, 3, 4]]] rfl

theorem isPrefixOf_append_self (l1 l2 : List Char) : l1.isPrefixOf (l1 ++ l2) = true := by
  induction l1 with
  | nil => simp [List.isPrefixOf]
  | cons a as ih => simp [List.isPrefixOf, ih]

theorem breakSub_append_self (sep t : Str) (hsep : sep ≠ []) :
    breakSub sep (sep ++ t) = some ([], t) := by
  cases sep with
  | nil => exact absurd rfl hsep
  | cons a as =>
    rw [List.cons_append, breakSub]
    rw [if_pos (by rw [← List.cons_append]; exact isPrefixOf_append_self (a :: as) t)]
    rw [← List.cons_append]
    rw [List.drop_left (a :: as) t]

theorem splitIdx1_append (sep t : Str) (hsep : sep ≠ []) (hno : breakSub sep t = none) :
    splitIdx1 sep (sep ++ t) = t := by
  rw [splitIdx1, breakSub_append_self sep t hsep]
  simp only [hno]

/-- C4 counterexample: the discovered sensor name is not always the suffix
after the `Quat1_` prefix.  The column `Quat1_AQuat1_B` is literally prefixed
by `Quat1_` with suffix `AQuat1_B`, yet `split("Quat1_")[1]` discovers the
name `A`. -/
theorem csv_sensor_name_not_suffix_cex :
    ("Quat1_".toList).isPrefixOf ("Quat1_AQuat1_B".toList) = true ∧
    ("Quat1_AQuat1_B".toList).drop 6 = "AQuat1_B".toList ∧
    csvSensorNames ["Quat1_AQuat1_B".toList] = ["A".toList] ∧
    ("A".toList : Str) ≠ "AQuat1_B".toList :=
  ⟨rfl, rfl, rfl, by decide⟩

theorem zip4_length : ∀ (a b c d : List ℚ), a.length = b.length → b.length = c.length →
    c.length = d.length → (zip4 a b c d).length = a.length := by
  intro a
  induction a with
  | nil =>
    intro b c d hab hbc hcd
    have hb : b = [] := List.length_eq_zero.mp (by simp at hab; omega)
    subst hb
    have hc : c = [] := List.length_eq_zero.mp (by simp at hbc; omega)
    subst hc
    have hd : d = [] := List.length_eq_zero.mp (by simp at hcd; omega)
    subst hd
    rfl
  | cons x a' ih =>
    intro b c d hab hbc hcd
    cases b with
    | nil => simp at hab
    | cons y b' =>
      cases c with
      | nil => simp at hbc
      | cons z c' =>
        cases d with
        | nil => simp at hcd
        | cons w d' =>
          rw [zip4, List.length_cons, List.length_cons]
          rw [ih b' c' d' (by simpa using hab) (by simpa using hbc) (by simpa using hcd)]

theorem zip4_get? : ∀ (t : ℕ) (a b c d : List ℚ) (x1 x2 x3 x4 : ℚ),
    a.get? t = some x1 → b.get? t = some x2 → c.get? t = some x3 → d.get? t = some x4 →
    (zip4 a b c d).get? t = some [x1, x2, x3, x4] := by
  intro t
  induction t with
  | zero =>
    intro a b c d x1 x2 x3 x4 h1 h2 h3 h4
    cases a with
    | nil => simp at h1
    | cons xa a' =>
      cases b with
      | nil => simp at h2
      | cons xb b' =>
        cases c with
        | nil => simp at h3
        | cons xc c' =>
          cases d with
          | nil => simp at h4
          | cons xd d' => simp_all [zip4]
  | succ t ih =>
    intro a b c d x1 x2 x3 x4 h1 h2 h3 h4
    cases a with
    | nil => simp at h1
    | cons xa a' =>
      cases b with
      | nil => simp at h2
      | cons xb b' =>
        cases c with
        | nil => simp at h3
        | cons xc c' =>
          cases d with
          | nil => simp at h4
          | cons xd d' =>
            rw [zip4, List.get?_cons_succ]
            exact ih a' b' c' d' x1 x2 x3 x4 (by simpa using h1) (by simpa using h2)
              (by simpa using h3) (by simpa using h4)

/-- C4 amended.  The discovered sensor names are the text between the first
and second occurrences of `Quat1_` in each `Quat1_`-prefixed column, in the
order the columns appear — equal to the suffix after the prefix whenever that
suffix does not itself contain `Quat1_` (the counterexample shows they differ
otherwise); loading fails with the no-sensors error when no `Quat1_`-prefixed
column exists; and a tabular file with sensors `A` and `B`, each of frame
count `N`, loads as exactly two timelines of length `N`, named `A` then `B`,
whose row `t` is the row-wise, scalar-first reading of
`Quat1_..Quat4_` at row `t`. -/
theorem csv_tabular_loader_spec :
    (∀ columns : List Str,
      (∀ c ∈ columns, ("Quat1_".toList).isPrefixOf c = true →
        breakSub ("Quat1_".toList) (c.drop 6) = none) →
      csvSensorNames columns =
        (columns.filter (fun c => ("Quat1_".toList).isPrefixOf c)).map (fun c => c.drop 6)) ∧
    (∀ df : DataFrame,
      (df.cols.map (·.1)).filter (fun c => ("Quat1_".toList).isPrefixOf c) = [] →
      load_csv_or_excel df =
        .error ("No sensors were detected. Columns must follow the 'Quat1_NAME' pattern.".toList)) ∧
    (∀ (c1 c2 c3 c4 d1 d2 d3 d4 : List ℚ) (N : ℕ),
      c1.length = N → c2.length = N → c3.length = N → c4.length = N →
      d1.length = N → d2.length = N → d3.length = N → d4.length = N →
      load_csv_or_excel ⟨[("Quat1_A".toList, c1), ("Quat2_A".toList, c2),
          ("Quat3_A".toList, c3), ("Quat4_A".toList, c4),
          ("Quat1_B".toList, d1), ("Quat2_B".toList, d2),
          ("Quat3_B".toList, d3), ("Quat4_B".toList, d4)]⟩ =
        .ok (["A".toList, "B".toList], [zip4 c1 c2 c3 c4, zip4 d1 d2 d3 d4]) ∧
      (zip4 c1 c2 c3 c4).length = N ∧ (zip4 d1 d2 d3 d4).length = N ∧
      (∀ (t : ℕ) (x1 x2 x3 x4 : ℚ), c1.get? t = some x1 → c2.get? t = some x2 →
        c3.get? t = some x3 → c4.get? t = some x4 →
        (zip4 c1 c2 c3 c4).get? t = some [x1, x2, x3, x4])) := by
  refine ⟨?_, ?_, ?_⟩
  · intro columns hno
    rw [csvSensorNames]
    refine List.map_congr_left (fun c hc => ?_)
    obtain ⟨hmem, hp⟩ := List.mem_filter.mp hc
    obtain ⟨t, rfl⟩ := (List.isPrefixOf_iff_prefix.mp hp)
    have hnone := hno _ hmem hp
    have h6 : (6 : ℕ) = ("Quat1_".toList).length := rfl
    rw [h6, List.drop_left] at hnone
    rw [h6, List.drop_left]
    exact splitIdx1_append _ t (by decide) hnone
  · intro df hfil
    rw [load_csv_or_excel, csvSensorNames, hfil]
    rfl
  · intro c1 c2 c3 c4 d1 d2 d3 d4 N h1 h2 h3 h4 h5 h6 h7 h8
    refine ⟨rfl, ?_, ?_,
      fun t x1 x2 x3 x4 hx1 hx2 hx3 hx4 => zip4_get? t c1 c2 c3 c4 x1 x2 x3 x4 hx1 hx2 hx3 hx4⟩
    · rw [zip4_length c1 c2 c3 c4 (by omega) (by omega) (by omega), h1]
    · rw [zip4_length d1 d2 d3 d4 (by omega) (by omega) (by omega), h5]

/-- C4 amended witness: the two-sensor load evaluated on a concrete one-frame
table. -/
theorem csv_tabular_loader_spec_witness :
    load_csv_or_excel ⟨[("Quat1_A".toList, [1]), ("Quat2_A".toList, [2]),
        ("Quat3_A".toList, [3]), ("Quat4_A".toList, [4]),
        ("Quat1_B".toList, [5]), ("Quat2_B".toList, [6]),
        ("Quat3_B".toList, [7]), ("Quat4_B".toList, [8])]⟩ =
      .ok (["A".toList, "B".toList], [zip4 [1] [2] [3] [4], zip4 [5] [6] [7] [8]]) :=
  (csv_tabular_loader_spec.2.2 [1] [2] [3] [4] [5] [6] [7] [8] 1
    rfl rfl rfl rfl rfl rfl rfl rfl).1

end NodeVis
